import Mathlib

/-!
Shallow embedding of the EVM multi-wallet balance tracker (src/src/App.jsx).

The core under verification: the display formatter `fmt`, the aggregation
pass `fetchBalancesOnce`, the CSV exporter `exportCsv`, the spreadsheet
address extractor `extractAddressesFromSheet` and the wallet merge performed
in `handleFileSelected`.

JavaScript numbers are modelled as exact rationals (`ℚ`); the float rounding
of the source is an explicitly documented precision trade-off there, and no
claim below depends on binary-float rounding.  The external collaborators
(ethers.js RPC calls and address checksumming, the XLSX codec) are modelled
as an explicit environment of functions, since the repository treats them as
black boxes.
-/

namespace EvmTracker

/-- A JavaScript value as it can reach the display formatter `fmt`:
`null`, `undefined`, a NaN number, a finite number, or a string. -/
inductive JSValue
  | null
  | undefined
  | nan
  | num (q : ℚ)
  | str (s : String)
deriving DecidableEq

/-- JavaScript `String.prototype.trim` on a character list: strip leading
and trailing whitespace. -/
def trimChars (l : List Char) : List Char :=
  ((l.dropWhile Char.isWhitespace).reverse.dropWhile Char.isWhitespace).reverse

/-- JavaScript `String.prototype.trim`. -/
def jsTrim (s : String) : String := ⟨trimChars s.data⟩

/-- The decimal digit character for `n % 10`. -/
def digitChar : ℕ → Char
  | 0 => '0'
  | 1 => '1'
  | 2 => '2'
  | 3 => '3'
  | 4 => '4'
  | 5 => '5'
  | 6 => '6'
  | 7 => '7'
  | 8 => '8'
  | _ => '9'

/-- Fuel-driven base-10 digit expansion (most significant digit first).
The fuel only needs to exceed the number of digits; `natDigits` passes
`n + 1`, which always suffices. -/
def natDigitsAux : ℕ → ℕ → List Char
  | 0, _ => []
  | fuel + 1, n =>
    if n < 10 then [digitChar n]
    else natDigitsAux fuel (n / 10) ++ [digitChar (n % 10)]

/-- Decimal digits of a natural number, most significant first
(models JavaScript `String(n)` for a nonnegative integer). -/
def natDigits (n : ℕ) : List Char := natDigitsAux (n + 1) n

/-- Decimal string of a natural number. -/
def natStr (n : ℕ) : String := ⟨natDigits n⟩

/-- Four decimal digits of `n % 10000`, zero padded to width 4. -/
def pad4 (n : ℕ) : String :=
  ⟨[digitChar (n / 1000 % 10), digitChar (n / 100 % 10),
    digitChar (n / 10 % 10), digitChar (n % 10)]⟩

/-- ES rounding for `toFixed(4)` on a nonnegative value: the integer `n`
with `n / 10^4` closest to `x`, ties picking the larger `n`. -/
def round4 (x : ℚ) : ℕ := (Int.floor (x * 10000 + 1/2)).toNat

/-- Fixed-point rendering with exactly 4 fractional digits of a nonnegative
value (the `toFixed(4)` main branch, no grouping). -/
def fixed4Core (x : ℚ) : String :=
  let n := round4 x
  natStr (n / 10000) ++ "." ++ pad4 (n % 10000)

/-- JavaScript `ToString` of an integer with at least 22 digits, which ES
renders in exponent notation (significant digits, then `e+`, then the
decimal exponent).  In the source this is only reached through `toFixed`
on magnitudes `≥ 10^21`, where every double is an integer. -/
def jsExpToString (n : ℕ) : String :=
  let ds := natDigits n
  let k := ds.length - 1
  let mant := (ds.reverse.dropWhile (fun c => c = '0')).reverse
  match mant with
  | [] => "0"
  | [d] => ⟨[d]⟩ ++ "e+" ++ natStr k
  | d :: rest => ⟨[d]⟩ ++ "." ++ ⟨rest⟩ ++ "e+" ++ natStr k

/-- Model of `Number.prototype.toFixed(4)` (used by `fix4` in `exportCsv`):
sign, then — per the ES specification — plain fixed-point with 4 fractional
digits for magnitudes below `10^21`, and the `ToString` fallback (exponent
notation) at or above `10^21`. -/
def toFixed4 (q : ℚ) : String :=
  let s := if q < 0 then "-" else ""
  let x := |q|
  if 10 ^ 21 ≤ x then s ++ jsExpToString (Int.floor x).toNat
  else s ++ fixed4Core x

/-- Insert a grouping separator after every three characters of a reversed
digit list (helper for thousands grouping). -/
def groupRev : List Char → List Char
  | a :: b :: c :: d :: rest => a :: b :: c :: ',' :: groupRev (d :: rest)
  | l => l

/-- Thousands grouping of a digit string, e.g. `1234` to `1,234`. -/
def groupDigits (s : String) : String := ⟨(groupRev s.data.reverse).reverse⟩

/-- Model of `n.toLocaleString(undefined, {minimumFractionDigits: 4,
maximumFractionDigits: 4})` for a nonnegative finite number: grouped integer
part, decimal point, exactly 4 fractional digits, half-away-from-zero
rounding, never exponent notation (Intl standard notation). -/
def localeFixed4 (x : ℚ) : String :=
  let n := round4 x
  groupDigits (natStr (n / 10000)) ++ "." ++ pad4 (n % 10000)

/-- `toLocaleString` of a finite number with 4 forced fractional digits,
handling the sign. -/
def fmtNumber (q : ℚ) : String :=
  if q < 0 then "-" ++ localeFixed4 (-q) else localeFixed4 q

/-- Value of a list of decimal digit characters. -/
def natOfDigits (l : List Char) : ℕ :=
  l.foldl (fun a c => a * 10 + (c.toNat - 48)) 0

/-- Model of JavaScript `Number(string)` coercion on the plain decimal
subset (optional sign, integer digits, optional fraction); a trimmed empty
string coerces to `0`, anything else non-numeric yields `none` (NaN). -/
def jsNumber (s : String) : Option ℚ :=
  let t := trimChars s.data
  if t.isEmpty then some 0
  else
    let su : ℚ × List Char :=
      match t with
      | '-' :: r => (-1, r)
      | '+' :: r => (1, r)
      | _ => (1, t)
    let ip := su.2.takeWhile Char.isDigit
    let rest := su.2.dropWhile Char.isDigit
    match rest with
    | [] => if ip.isEmpty then none else some (su.1 * natOfDigits ip)
    | '.' :: fr =>
      if fr.all Char.isDigit && !(ip.isEmpty && fr.isEmpty) then
        some (su.1 * ((natOfDigits ip : ℚ) + natOfDigits fr / 10 ^ fr.length))
      else none
    | _ => none

/-- The display formatter `fmt` of App.jsx (digits fixed at the default 4):
returns the sentinel for `null`, `undefined` and an already-NaN number
(`Number.isNaN` does not coerce), otherwise coerces to a number and calls
`toLocaleString` with 4 forced fractional digits; a string that fails
numeric coercion therefore renders as `"NaN"`. -/
def fmt : JSValue → String
  | .null => "-"
  | .undefined => "-"
  | .nan => "-"
  | .num q => fmtNumber q
  | .str s =>
    match jsNumber s with
    | some q => fmtNumber q
    | none => "NaN"

/-- Characters strictly after the first `'.'`, provided no second `'.'`
follows; `none` when there is no dot or more than one. -/
def afterDot : List Char → Option (List Char)
  | [] => none
  | c :: rest =>
    if c = '.' then (if rest.contains '.' then none else some rest)
    else afterDot rest

/-- The string has exactly one decimal point with exactly 4 digit
characters after it. -/
def frac4Ok (s : String) : Bool :=
  match afterDot s.data with
  | some t => t.length == 4 && t.all Char.isDigit
  | none => false

/-- The string contains no exponent marker. -/
def noExp (s : String) : Bool :=
  !(s.data.contains 'e' || s.data.contains 'E')

/-! ## Data model of the aggregation engine -/

/-- A chain configuration row of the UI state (`chains`). -/
structure ChainConfig where
  id : String
  rpc : String
  symbol : String
deriving DecidableEq

/-- A token configuration row of the UI state (`tokens[chainId]`);
`decimals` is `none` when the user left the override empty (`null`). -/
structure TokenConfig where
  address : String
  symbol : String
  decimals : Option ℕ
deriving DecidableEq

/-- One output row pushed by `fetchBalancesOnce`.  `none` in `wallet`,
`asset`, `contract` means the field is absent (`undefined`) on the pushed
object, as on the chain-level connect-error row; `none` in `balance`,
`decimals`, `error` covers both `null` and an absent field, which the
exporters treat identically (`?? ""` / `== null`). -/
structure BalanceRow where
  chain : String
  wallet : Option String := none
  asset : Option String := none
  contract : Option String := none
  balance : Option ℚ := none
  decimals : Option ℕ := none
  error : Option String := none
deriving DecidableEq

/-- The external ethers.js surface used by one aggregation pass, keyed the
way the source keys it (RPC URL, contract address, checksummed wallet).
`getAddress` returns `none` where `ethers.getAddress` throws; a string is
`ethers.isAddress`-valid exactly when `getAddress` succeeds. -/
structure Env where
  probe : String → Except String Unit
  getAddress : String → Option String
  getBalance : String → String → Except String ℤ
  tokenDecimals : String → String → Except String ℕ
  tokenSymbol : String → String → Except String String
  tokenBalanceOf : String → String → String → Except String ℤ

/-- `Number(ethers.formatUnits(raw, d))`: scale an integer chain amount by
`10^d` (exact rational in this model). -/
def formatUnits (raw : ℤ) (d : ℕ) : ℚ := (raw : ℚ) / 10 ^ d

/-- JavaScript `s.slice(0, 6)`: the first six characters. -/
def slice6 (s : String) : String := ⟨s.data.take 6⟩

/-- The `decimals` resolution of the per-token loop: the configured
override if present, else the contract query, else the default 18 on query
failure (the inner try/catch). -/
def resolveDecimals (env : Env) (rpc : String) (t : TokenConfig) : ℕ :=
  match t.decimals with
  | some d => d
  | none =>
    match env.tokenDecimals rpc t.address with
    | .ok d => d
    | .error _ => 18

/-- The `symbol` resolution of the per-token loop: the configured override
if non-empty, else the contract query, else the first 6 characters of the
contract address on query failure (the inner try/catch). -/
def resolveSymbol (env : Env) (rpc : String) (t : TokenConfig) : String :=
  if t.symbol ≠ "" then t.symbol
  else
    match env.tokenSymbol rpc t.address with
    | .ok s => s
    | .error _ => slice6 t.address

/-- The body of the per-token loop of `fetchBalancesOnce` for one token
with a non-empty contract address: resolve `decimals` and `symbol`, then
fetch the balance; a balance-fetch failure degrades to an error row whose
asset is `t.symbol || t.address.slice(0, 6)` (not the queried symbol). -/
def tokenRow (env : Env) (ch : ChainConfig) (checksum : String)
    (t : TokenConfig) : BalanceRow :=
  let decimals := resolveDecimals env ch.rpc t
  let symbol := resolveSymbol env ch.rpc t
  match env.tokenBalanceOf ch.rpc t.address checksum with
  | .ok raw =>
    { chain := ch.id, wallet := some checksum, asset := some symbol,
      contract := some t.address, balance := some (formatUnits raw decimals),
      decimals := some decimals }
  | .error e =>
    { chain := ch.id, wallet := some checksum,
      asset := some (if t.symbol ≠ "" then t.symbol else slice6 t.address),
      contract := some t.address, balance := none,
      error := some ("token error: " ++ e) }

/-- The native-balance block of `fetchBalancesOnce`: one row per wallet,
`balance` from `formatEther` (scale 18) on success, else a
`"native error: ..."` row.  `asset` is `ch.symbol || "native"`. -/
def nativeRow (env : Env) (ch : ChainConfig) (checksum : String) :
    BalanceRow :=
  match env.getBalance ch.rpc checksum with
  | .ok wei =>
    { chain := ch.id, wallet := some checksum,
      asset := some (if ch.symbol ≠ "" then ch.symbol else "native"),
      contract := some "native", balance := some (formatUnits wei 18) }
  | .error e =>
    { chain := ch.id, wallet := some checksum,
      asset := some (if ch.symbol ≠ "" then ch.symbol else "native"),
      contract := some "native", balance := none,
      error := some ("native error: " ++ e) }

/-- The per-wallet body of `fetchBalancesOnce`: empty wallet strings are
skipped; a wallet failing `ethers.getAddress` yields the single
invalid-address row and skips native and token processing; otherwise the
native row is followed by one row per token with a non-empty contract
address. -/
def walletRows (env : Env) (ch : ChainConfig) (toks : List TokenConfig)
    (w : String) : List BalanceRow :=
  if w = "" then []
  else
    match env.getAddress w with
    | none =>
      [{ chain := ch.id, wallet := some w,
         asset := some (if ch.symbol ≠ "" then ch.symbol else "native"),
         contract := some "native", balance := none,
         error := some "invalid address" }]
    | some checksum =>
      nativeRow env ch checksum ::
        (toks.filter (fun t => t.address ≠ "")).map (tokenRow env ch checksum)

/-- The chain-level row pushed when the connectivity probe fails: only
`chain` and `error` are present on the object. -/
def connectErrorRow (chainId e : String) : BalanceRow :=
  { chain := chainId, error := some ("RPC connect error: " ++ e) }

/-- The per-chain body of `fetchBalancesOnce`: chains with empty `rpc` or
`id` are skipped silently; a failed probe (`new JsonRpcProvider` +
`getBlockNumber`) yields exactly the connect-error row and no per-wallet
work; otherwise every wallet is processed in order. -/
def chainRows (env : Env) (wallets : List String)
    (tokens : String → List TokenConfig) (ch : ChainConfig) :
    List BalanceRow :=
  if ch.rpc = "" ∨ ch.id = "" then []
  else
    match env.probe ch.rpc with
    | .error e => [connectErrorRow ch.id e]
    | .ok _ => (wallets.map (walletRows env ch (tokens ch.id))).flatten

/-- The aggregation pass `fetchBalancesOnce` as the list of rows it pushes
to `out`; `tokens` is the per-chain token table already including the
`tokens[ch.id] || []` default. -/
def fetchBalancesOnce (env : Env) (chains : List ChainConfig)
    (wallets : List String) (tokens : String → List TokenConfig) :
    List BalanceRow :=
  (chains.map (chainRows env wallets tokens)).flatten

/-! ## CSV export -/

/-- The `fix4` helper of `exportCsv`: empty string when `balance` is null
or absent, else `Number(x).toFixed(4)`. -/
def fix4 : Option ℚ → String
  | none => ""
  | some q => toFixed4 q

/-- JavaScript `String(v)` applied to a possibly absent string field:
an absent (`undefined`) field coerces to the literal text `undefined`. -/
def jsStr : Option String → String
  | some s => s
  | none => "undefined"

/-- Double every quote character (the global-regex quote replacement of
`exportCsv`). -/
def escQuotes : List Char → List Char
  | [] => []
  | c :: rest =>
    if c = '"' then '"' :: '"' :: escQuotes rest else c :: escQuotes rest

/-- Unconditional CSV quoting with doubled embedded quotes,
the quote-wrap-and-replace step of `exportCsv`. -/
def csvEscape (s : String) : String :=
  "\"" ++ (⟨escQuotes s.data⟩ : String) ++ "\""

/-- The seven field strings of one CSV data line, before quoting, in the
source's fixed order; `decimals` and `error` go through `?? ""` and
`balance` through `fix4`. -/
def csvFields (r : BalanceRow) : List String :=
  [r.chain, jsStr r.wallet, jsStr r.asset, jsStr r.contract,
   (r.decimals.map natStr).getD "", fix4 r.balance, r.error.getD ""]

/-- One quoted CSV data line of `exportCsv`. -/
def csvLine (r : BalanceRow) : String :=
  String.intercalate "," ((csvFields r).map csvEscape)

/-- The fixed (unquoted) header line of `exportCsv`, newline included. -/
def csvHeader : String :=
  String.intercalate ","
    ["chain", "wallet", "asset", "contract", "decimals", "balance", "error"]
    ++ "\n"

/-- The CSV text produced by `exportCsv` for a row set: header line, then
one line per row in input order, joined by newlines. -/
def exportCsv (rows : List BalanceRow) : String :=
  csvHeader ++ String.intercalate "\n" (rows.map csvLine)

/-! ## Address import -/

/-- The structural gate `isProbablyAddress`: trimmed string starting with
`0x` and exactly 42 characters long (an empty string fails both tests, so
the falsy guard of the source needs no separate case). -/
def isProbablyAddress (v : String) : Bool :=
  let s := trimChars v.data
  s.take 2 == ['0', 'x'] && s.length == 42

/-- JS `Set.add` with insertion order kept (a `Set` iterates in insertion
order, and `Array.from` preserves it). -/
def insertUnique (l : List String) (a : String) : List String :=
  if a ∈ l then l else l ++ [a]

/-- One cell visit of `extractAddressesFromSheet`: trim the cell's string
form; when it passes the structural gate and checksumming succeeds, add
the canonical address to the set. -/
def scanCell (canon : String → Option String) (acc : List String)
    (cell : String) : List String :=
  let s := jsTrim cell
  if isProbablyAddress s then
    match canon s with
    | some a => insertUnique acc a
    | none => acc
  else acc

/-- `extractAddressesFromSheet` over a row-major cell grid (cells already
in string form — the XLSX codec is external): the array-mode pass scans
every cell of every row; the object-mode pass re-scans the value cells of
the non-header rows (its keys are the header texts, its values the
remaining rows' cells), which can only re-add elements already collected.
`canon` models `ethers.getAddress`/`isAddress`. -/
def extractAddressesFromSheet (canon : String → Option String)
    (grid : List (List String)) : List String :=
  let pass1 := grid.foldl (fun acc row => row.foldl (scanCell canon) acc) []
  (grid.drop 1).foldl (fun acc row => row.foldl (scanCell canon) acc) pass1

/-- The wallet-merge updater of `handleFileSelected`: canonicalize the
existing entries for comparison only (a failing `getAddress` keeps the raw
string), then append each found address not already present. -/
def mergeWallets (canon : String → Option String) (prev : List String)
    (addrs : List String) : List String :=
  let haveSet := prev.map (fun w => (canon w).getD w)
  prev ++ addrs.filter (fun a => !(haveSet.contains a))

/-! ## Concrete test fixtures

A small concrete environment used to instantiate the universally
quantified theorems below at explicit inputs.  The canonicalization
function is a finite stand-in for EIP-55 checksumming with the properties
the spec assigns to it (case variants of one address map to one canonical
output, canonicalization is idempotent). -/

/-- A syntactically valid address, all lowercase (`0x` + 40 hex chars). -/
def addrLowA : String := "0xaaaaaaaaaaaaaaaaaaaaaaaaaaaaaaaaaaaaaaaa"

/-- The same address as `addrLowA`, all uppercase hex digits. -/
def addrUpA : String := "0xAAAAAAAAAAAAAAAAAAAAAAAAAAAAAAAAAAAAAAAA"

/-- The canonical (checksummed) form of `addrLowA` in the test model. -/
def addrCanA : String := "0xAaAaAaAaAaAaAaAaAaAaAaAaAaAaAaAaAaAaAaAa"

/-- A second valid address, distinct from `addrLowA`. -/
def addrLowB : String := "0xbbbbbbbbbbbbbbbbbbbbbbbbbbbbbbbbbbbbbbbb"

/-- The canonical form of `addrLowB` in the test model. -/
def addrCanB : String := "0xBbBbBbBbBbBbBbBbBbBbBbBbBbBbBbBbBbBbBbBb"

/-- Concrete canonicalization: recognizes the case variants of the two
test addresses and their canonical forms; everything else is invalid. -/
def testCanon (s : String) : Option String :=
  if s = addrLowA ∨ s = addrUpA ∨ s = addrCanA then some addrCanA
  else if s = addrLowB ∨ s = addrCanB then some addrCanB
  else none

/-- Concrete environment: one bad RPC endpoint, balances known for the
canonical test address A, one well-behaved token contract `0xtok1`. -/
def testEnv : Env where
  probe := fun rpc => if rpc = "https://bad.example" then .error "timeout" else .ok ()
  getAddress := testCanon
  getBalance := fun _ w => if w = addrCanA then .ok (10 ^ 18) else .error "boom"
  tokenDecimals := fun _ c => if c = "0xtok1" then .ok 6 else .error "nodec"
  tokenSymbol := fun _ c => if c = "0xtok1" then .ok "TK1" else .error "nosym"
  tokenBalanceOf := fun _ c _ => if c = "0xtok1" then .ok 5000000 else .error "revert"

/-- A healthy test chain. -/
def testChain : ChainConfig := ⟨"ethereum", "https://rpc.example", "ETH"⟩

/-- A test chain whose probe fails. -/
def badChain : ChainConfig := ⟨"polygon", "https://bad.example", "MATIC"⟩

/-- A token whose queries and balance fetch succeed. -/
def tok1 : TokenConfig := ⟨"0xtok1", "", none⟩

/-- A token whose balance fetch fails. -/
def tok2 : TokenConfig := ⟨"0xtok2", "", none⟩

/-- A token config with an empty contract address (skipped by the loop). -/
def tokEmpty : TokenConfig := ⟨"", "TKX", some 8⟩

/-! ## Formatter lemmas -/

theorem round4_eq (x : ℚ) (n : ℕ) (h1 : (n : ℚ) ≤ x * 10000 + 1/2)
    (h2 : x * 10000 + 1/2 < n + 1) : round4 x = n := by
  unfold round4
  have h : Int.floor (x * 10000 + 1/2) = (n : ℤ) := by
    rw [Int.floor_eq_iff]
    exact ⟨by exact_mod_cast h1, by push_cast; exact h2⟩
  rw [h]
  simp

theorem digitChar_isDigit (n : ℕ) : (digitChar n).isDigit = true := by
  rcases n with _|_|_|_|_|_|_|_|_|_ <;> rfl

theorem mem_natDigitsAux (fuel n : ℕ) :
    ∀ c ∈ natDigitsAux fuel n, c.isDigit = true := by
  induction fuel generalizing n with
  | zero => simp [natDigitsAux]
  | succ fuel ih =>
    intro c hc
    unfold natDigitsAux at hc
    split at hc
    · rcases List.mem_singleton.mp hc with rfl
      exact digitChar_isDigit n
    · rcases List.mem_append.mp hc with h | h
      · exact ih _ c h
      · rcases List.mem_singleton.mp h with rfl
        exact digitChar_isDigit (n % 10)

theorem mem_natDigits (n : ℕ) : ∀ c ∈ natDigits n, c.isDigit = true :=
  mem_natDigitsAux (n + 1) n

theorem natDigitsAux_ne_nil (fuel n : ℕ) : natDigitsAux (fuel + 1) n ≠ [] := by
  unfold natDigitsAux
  split
  · simp
  · simp

theorem natDigits_ne_nil (n : ℕ) : natDigits n ≠ [] := natDigitsAux_ne_nil n n

theorem isDigit_ne_special (c : Char) (h : c.isDigit = true) :
    c ≠ '.' ∧ c ≠ ',' ∧ c ≠ 'e' ∧ c ≠ 'E' := by
  refine ⟨?_, ?_, ?_, ?_⟩ <;> rintro rfl <;> exact absurd h (by decide)

theorem mem_groupRev : ∀ (l : List Char), ∀ x ∈ groupRev l, x ∈ l ∨ x = ','
  | [] => by simp [groupRev]
  | [a] => by simp [groupRev]
  | [a, b] => by simp [groupRev]
  | [a, b, c] => by simp [groupRev]
  | a :: b :: c :: d :: rest => by
    intro x hx
    have heq : groupRev (a :: b :: c :: d :: rest)
        = a :: b :: c :: ',' :: groupRev (d :: rest) := rfl
    rw [heq] at hx
    simp only [List.mem_cons] at hx ⊢
    rcases hx with h | h | h | h | h
    · exact Or.inl (Or.inl h)
    · exact Or.inl (Or.inr (Or.inl h))
    · exact Or.inl (Or.inr (Or.inr (Or.inl h)))
    · exact Or.inr h
    · rcases mem_groupRev (d :: rest) x h with h' | h'
      · rcases List.mem_cons.mp h' with h'' | h''
        · exact Or.inl (Or.inr (Or.inr (Or.inr (Or.inl h''))))
        · exact Or.inl (Or.inr (Or.inr (Or.inr (Or.inr h''))))
      · exact Or.inr h'

theorem mem_groupDigits (s : String) (c : Char)
    (h : c ∈ (groupDigits s).data) : c ∈ s.data ∨ c = ',' := by
  unfold groupDigits at h
  rw [show (⟨(groupRev s.data.reverse).reverse⟩ : String).data
      = (groupRev s.data.reverse).reverse from rfl] at h
  rcases mem_groupRev s.data.reverse c (List.mem_reverse.mp h) with h' | h'
  · exact Or.inl (List.mem_reverse.mp h')
  · exact Or.inr h'

theorem contains_eq_false_of_not_mem {α : Type} [BEq α] [LawfulBEq α]
    {l : List α} {c : α} (h : c ∉ l) : l.contains c = false := by
  rw [List.contains_eq_any_beq]
  simp only [List.any_eq_false]
  intro x hx
  simp only [beq_iff_eq]
  rintro rfl
  exact h hx

theorem contains_eq_true_of_mem {α : Type} [BEq α] [LawfulBEq α]
    {l : List α} {c : α} (h : c ∈ l) : l.contains c = true := by
  rw [List.contains_eq_any_beq]
  exact List.any_eq_true.mpr ⟨c, h, beq_self_eq_true c⟩

theorem afterDot_append (pre post : List Char) (h1 : '.' ∉ pre)
    (h2 : '.' ∉ post) : afterDot (pre ++ '.' :: post) = some post := by
  induction pre with
  | nil =>
    show afterDot ('.' :: post) = some post
    unfold afterDot
    rw [if_pos rfl, contains_eq_false_of_not_mem h2]
    simp
  | cons c cs ih =>
    have hc : c ≠ '.' := fun h => h1 (h ▸ List.mem_cons_self c cs)
    have hcs : '.' ∉ cs := fun h => h1 (List.mem_cons_of_mem c h)
    show afterDot (c :: (cs ++ '.' :: post)) = some post
    unfold afterDot
    rw [if_neg hc]
    exact ih hcs

theorem pad4_data (m : ℕ) : (pad4 m).data
    = [digitChar (m / 1000 % 10), digitChar (m / 100 % 10),
       digitChar (m / 10 % 10), digitChar (m % 10)] := rfl

theorem mem_pad4_isDigit (m : ℕ) : ∀ c ∈ (pad4 m).data, c.isDigit = true := by
  rw [pad4_data]
  intro c hc
  rcases List.mem_cons.mp hc with rfl | hc
  · exact digitChar_isDigit _
  rcases List.mem_cons.mp hc with rfl | hc
  · exact digitChar_isDigit _
  rcases List.mem_cons.mp hc with rfl | hc
  · exact digitChar_isDigit _
  rcases List.mem_singleton.mp hc with rfl
  exact digitChar_isDigit _

theorem frac4Ok_data (s : String) (pre : List Char) (m : ℕ) (h1 : '.' ∉ pre)
    (hdata : s.data = pre ++ '.' :: (pad4 m).data) : frac4Ok s = true := by
  have h2 : '.' ∉ (pad4 m).data := fun h =>
    (isDigit_ne_special _ (mem_pad4_isDigit m _ h)).1 rfl
  unfold frac4Ok
  rw [hdata, afterDot_append pre _ h1 h2]
  simp only [pad4_data]
  simp [digitChar_isDigit]

theorem localeFixed4_data (x : ℚ) : (localeFixed4 x).data
    = (groupDigits (natStr (round4 x / 10000))).data
      ++ '.' :: (pad4 (round4 x % 10000)).data := by
  unfold localeFixed4
  rw [String.data_append, String.data_append, List.append_assoc]
  rfl

theorem mem_localeFixed4 (x : ℚ) (c : Char) (h : c ∈ (localeFixed4 x).data) :
    c.isDigit = true ∨ c = ',' ∨ c = '.' := by
  rw [localeFixed4_data] at h
  rcases List.mem_append.mp h with h | h
  · rcases mem_groupDigits _ _ h with h' | h'
    · exact Or.inl (mem_natDigits _ _ h')
    · exact Or.inr (Or.inl h')
  · rcases List.mem_cons.mp h with rfl | h'
    · exact Or.inr (Or.inr rfl)
    · exact Or.inl (mem_pad4_isDigit _ _ h')

theorem not_dot_mem_groupDigits_natStr (n : ℕ) :
    '.' ∉ (groupDigits (natStr n)).data := by
  intro h
  rcases mem_groupDigits _ _ h with h' | h'
  · exact (isDigit_ne_special _ (mem_natDigits _ _ h')).1 rfl
  · exact absurd h' (by decide)

theorem frac4Ok_localeFixed4 (x : ℚ) : frac4Ok (localeFixed4 x) = true :=
  frac4Ok_data _ _ _ (not_dot_mem_groupDigits_natStr _) (localeFixed4_data x)

theorem noExp_localeFixed4 (x : ℚ) : noExp (localeFixed4 x) = true := by
  unfold noExp
  have he : 'e' ∉ (localeFixed4 x).data := by
    intro h
    rcases mem_localeFixed4 x 'e' h with h' | h' | h'
    · exact (isDigit_ne_special _ h').2.2.1 rfl
    · exact absurd h' (by decide)
    · exact absurd h' (by decide)
  have hE : 'E' ∉ (localeFixed4 x).data := by
    intro h
    rcases mem_localeFixed4 x 'E' h with h' | h' | h'
    · exact (isDigit_ne_special _ h').2.2.2 rfl
    · exact absurd h' (by decide)
    · exact absurd h' (by decide)
  rw [contains_eq_false_of_not_mem he, contains_eq_false_of_not_mem hE]
  rfl

theorem dot_mem_localeFixed4 (x : ℚ) : '.' ∈ (localeFixed4 x).data := by
  rw [localeFixed4_data]
  exact List.mem_append.mpr (Or.inr (List.mem_cons_self _ _))

theorem toFixed4_lt (q : ℚ) (h : |q| < 10 ^ 21) :
    toFixed4 q = (if q < 0 then "-" else "") ++ fixed4Core |q| := by
  unfold toFixed4
  rw [if_neg (not_le.mpr h)]

theorem toFixed4_data_lt (q : ℚ) (h : |q| < 10 ^ 21) :
    (toFixed4 q).data
      = ((if q < 0 then "-" else "" : String).data
          ++ (natStr (round4 |q| / 10000)).data)
        ++ '.' :: (pad4 (round4 |q| % 10000)).data := by
  rw [toFixed4_lt q h, String.data_append]
  unfold fixed4Core
  rw [String.data_append, String.data_append, List.append_assoc,
    List.append_assoc]
  rfl

theorem not_dot_mem_sign_natStr (q : ℚ) (n : ℕ) :
    '.' ∉ ((if q < 0 then "-" else "" : String).data ++ (natStr n).data) := by
  intro hm
  rcases List.mem_append.mp hm with hm | hm
  · split at hm
    · exact absurd hm (by decide)
    · exact absurd hm (by decide)
  · exact (isDigit_ne_special _ (mem_natDigits _ _ hm)).1 rfl

theorem frac4Ok_toFixed4 (q : ℚ) (h : |q| < 10 ^ 21) :
    frac4Ok (toFixed4 q) = true :=
  frac4Ok_data _ _ _ (not_dot_mem_sign_natStr q _) (toFixed4_data_lt q h)

theorem fmtNumber_ne_sentinel (q : ℚ) : fmtNumber q ≠ "-" := by
  unfold fmtNumber
  split
  · intro h
    have hd : ('-' :: (localeFixed4 (-q)).data) = ['-'] := by
      have := congrArg String.data h
      rw [String.data_append] at this
      exact this
    have : (localeFixed4 (-q)).data = [] := by
      injection hd
    exact absurd (this ▸ dot_mem_localeFixed4 (-q)) (by simp [this])
  · intro h
    have : '.' ∈ ("-" : String).data := h ▸ dot_mem_localeFixed4 q
    exact absurd this (by decide)

/-! ## Claim C6: the display formatter never uses scientific notation -/

/-- C6: for every numeric value between `1e-10` and `1e30`, `fmt` with the
default 4 digits returns a fixed-point string with exactly 4 fractional
digits and no `e`/`E` character, and returns the sentinel `"-"` for `null`,
`undefined` and NaN. -/
theorem C6_fmt_fixed_point (q : ℚ) (h1 : (1 : ℚ)/10^10 ≤ q)
    (_h2 : q ≤ 10^30) :
    noExp (fmt (.num q)) = true ∧ frac4Ok (fmt (.num q)) = true
    ∧ fmt .null = "-" ∧ fmt .undefined = "-" ∧ fmt .nan = "-" := by
  have hq : ¬ q < 0 := not_lt.mpr (le_trans (by norm_num) h1)
  have hfmt : fmt (.num q) = localeFixed4 q := by
    show fmtNumber q = _
    unfold fmtNumber
    rw [if_neg hq]
  refine ⟨?_, ?_, rfl, rfl, rfl⟩
  · rw [hfmt]; exact noExp_localeFixed4 q
  · rw [hfmt]; exact frac4Ok_localeFixed4 q

/-- Witness for C6 at the concrete value 5. -/
theorem C6_fmt_fixed_point_witness :
    noExp (fmt (.num 5)) = true ∧ frac4Ok (fmt (.num 5)) = true
    ∧ fmt .null = "-" ∧ fmt .undefined = "-" ∧ fmt .nan = "-" :=
  C6_fmt_fixed_point 5 (by norm_num) (by norm_num)

/-! ## Claim C10: a non-numeric string renders as "NaN", not the sentinel -/

/-- C10: the formatter's not-a-number guard runs before numeric coercion,
so the non-numeric string `"abc"` renders as `"NaN"` rather than the
sentinel, and exactly `null`, `undefined` and an already-NaN number produce
the sentinel `"-"`. -/
theorem C10_fmt_nan_guard :
    fmt (.str "abc") = "NaN"
    ∧ ("NaN" : String) ≠ "-"
    ∧ ∀ v : JSValue, fmt v = "-" ↔ (v = .null ∨ v = .undefined ∨ v = .nan) := by
  refine ⟨rfl, by decide, ?_⟩
  intro v
  constructor
  · intro h
    cases v with
    | null => exact Or.inl rfl
    | undefined => exact Or.inr (Or.inl rfl)
    | nan => exact Or.inr (Or.inr rfl)
    | num q => exact absurd h (fmtNumber_ne_sentinel q)
    | str s =>
      exfalso
      cases hj : jsNumber s with
      | some q =>
        rw [show fmt (.str s) = fmtNumber q from by simp [fmt, hj]] at h
        exact fmtNumber_ne_sentinel q h
      | none =>
        rw [show fmt (.str s) = "NaN" from by simp [fmt, hj]] at h
        exact absurd h (by decide)
  · rintro (rfl | rfl | rfl) <;> rfl

/-! ## Claim C5: CSV export shape -/

/-- C5 counterexample: a row with raw balance `10^21` exports its balance
field as `"1e+21"` — exponent notation, not a fixed-point string with 4
fractional digits — because `toFixed` falls back to `ToString` at `10^21`. -/
theorem C5_csv_counterexample :
    fix4 (some ((10 : ℚ) ^ 21)) = "1e+21"
    ∧ frac4Ok "1e+21" = false ∧ noExp "1e+21" = false := by
  refine ⟨?_, by decide, by decide⟩
  show toFixed4 ((10 : ℚ) ^ 21) = "1e+21"
  have habs : |((10 : ℚ) ^ 21)| = 10 ^ 21 := abs_of_nonneg (by positivity)
  have hge : (10 : ℚ) ^ 21 ≤ |((10 : ℚ) ^ 21)| := habs ▸ le_refl _
  have hneg : ¬ ((10 : ℚ) ^ 21 < 0) := not_lt.mpr (by positivity)
  have hfloor : Int.floor ((10 : ℚ) ^ 21) = 10 ^ 21 := by
    rw [show ((10 : ℚ) ^ 21) = ((10 ^ 21 : ℤ) : ℚ) from by push_cast; ring]
    exact Int.floor_intCast _
  unfold toFixed4
  rw [if_neg hneg, if_pos hge, habs, hfloor]
  rw [show ((10 : ℤ) ^ 21).toNat = 10 ^ 21 from rfl]
  rfl

/-- C5 (amended): the CSV export is the fixed header line followed by one
line per input row in input order; every data field is quoted
unconditionally with embedded quotes doubled; the balance field is
re-derived from the raw numeric balance with exactly 4 fractional digits
for magnitudes below `10^21` (the example value `1234.56789` renders as
`1234.5679`), and is the empty string when the balance is null. -/
theorem C5_export_csv (rows : List BalanceRow) :
    exportCsv rows
        = "chain,wallet,asset,contract,decimals,balance,error\n"
          ++ String.intercalate "\n" (rows.map csvLine)
    ∧ (∀ r : BalanceRow, csvLine r
        = String.intercalate ","
            ((csvFields r).map
              (fun v => "\"" ++ (⟨escQuotes v.data⟩ : String) ++ "\"")))
    ∧ (∀ q : ℚ, |q| < 10 ^ 21 → frac4Ok (fix4 (some q)) = true)
    ∧ fix4 none = ""
    ∧ fix4 (some (123456789 / 100000 : ℚ)) = "1234.5679" := by
  refine ⟨rfl, fun r => rfl, fun q h => frac4Ok_toFixed4 q h, rfl, ?_⟩
  show toFixed4 (123456789 / 100000 : ℚ) = "1234.5679"
  have hr : round4 (123456789 / 100000 : ℚ) = 12345679 := by
    apply round4_eq <;> norm_num
  have hneg : ¬ ((123456789 / 100000 : ℚ) < 0) := by norm_num
  have habs : |(123456789 / 100000 : ℚ)| = 123456789 / 100000 := by
    rw [abs_of_nonneg]
    norm_num
  have hlt : ¬ ((10 : ℚ) ^ 21 ≤ |(123456789 / 100000 : ℚ)|) := by
    rw [habs]
    norm_num
  unfold toFixed4
  rw [if_neg hneg, if_neg hlt, habs]
  unfold fixed4Core
  rw [hr]
  rfl

/-- Witness for the amended C5 at the concrete balance 5. -/
theorem C5_export_csv_witness : frac4Ok (fix4 (some (5 : ℚ))) = true :=
  (C5_export_csv []).2.2.1 5 (by norm_num)

/-! ## Aggregation engine lemmas -/

theorem walletRows_valid_eq (env : Env) (ch : ChainConfig)
    (toks : List TokenConfig) (w c : String) (hw : w ≠ "")
    (hc : env.getAddress w = some c) :
    walletRows env ch toks w
      = nativeRow env ch c
        :: (toks.filter (fun t => t.address ≠ "")).map (tokenRow env ch c) := by
  unfold walletRows
  rw [if_neg hw, hc]

theorem walletRows_valid_length (env : Env) (ch : ChainConfig)
    (toks : List TokenConfig) (w c : String) (hw : w ≠ "")
    (hc : env.getAddress w = some c) :
    (walletRows env ch toks w).length
      = 1 + (toks.filter (fun t => t.address ≠ "")).length := by
  rw [walletRows_valid_eq env ch toks w c hw hc]
  simp [List.length_map, Nat.add_comm]

theorem walletRows_invalid_eq (env : Env) (ch : ChainConfig)
    (toks : List TokenConfig) (w : String) (hw : w ≠ "")
    (hna : env.getAddress w = none) :
    walletRows env ch toks w
      = [{ chain := ch.id, wallet := some w,
           asset := some (if ch.symbol ≠ "" then ch.symbol else "native"),
           contract := some "native", balance := none, decimals := none,
           error := some "invalid address" }] := by
  unfold walletRows
  rw [if_neg hw, hna]

theorem chainRows_probe_error (env : Env) (ws : List String)
    (tk : String → List TokenConfig) (ch : ChainConfig) (e : String)
    (hid : ch.id ≠ "") (hrpc : ch.rpc ≠ "")
    (hp : env.probe ch.rpc = .error e) :
    chainRows env ws tk ch = [connectErrorRow ch.id e] := by
  unfold chainRows
  rw [if_neg (not_or.mpr ⟨hrpc, hid⟩), hp]

theorem fetchBalancesOnce_cons (env : Env) (ch : ChainConfig)
    (rest : List ChainConfig) (ws : List String)
    (tk : String → List TokenConfig) :
    fetchBalancesOnce env (ch :: rest) ws tk
      = chainRows env ws tk ch ++ fetchBalancesOnce env rest ws tk := by
  unfold fetchBalancesOnce
  rw [List.map_cons, List.flatten_cons]

theorem nativeRow_ok_eq (env : Env) (ch : ChainConfig) (c : String)
    (wei : ℤ) (hg : env.getBalance ch.rpc c = .ok wei) :
    nativeRow env ch c
      = { chain := ch.id, wallet := some c,
          asset := some (if ch.symbol ≠ "" then ch.symbol else "native"),
          contract := some "native",
          balance := some (formatUnits wei 18), decimals := none,
          error := none } := by
  unfold nativeRow
  rw [hg]

theorem nativeRow_error_eq (env : Env) (ch : ChainConfig) (c : String)
    (e : String) (hg : env.getBalance ch.rpc c = .error e) :
    nativeRow env ch c
      = { chain := ch.id, wallet := some c,
          asset := some (if ch.symbol ≠ "" then ch.symbol else "native"),
          contract := some "native", balance := none, decimals := none,
          error := some ("native error: " ++ e) } := by
  unfold nativeRow
  rw [hg]

theorem tokenRow_ok_eq (env : Env) (ch : ChainConfig) (c : String)
    (t : TokenConfig) (b : ℤ)
    (hb : env.tokenBalanceOf ch.rpc t.address c = .ok b) :
    tokenRow env ch c t
      = { chain := ch.id, wallet := some c,
          asset := some (resolveSymbol env ch.rpc t),
          contract := some t.address,
          balance := some (formatUnits b (resolveDecimals env ch.rpc t)),
          decimals := some (resolveDecimals env ch.rpc t),
          error := none } := by
  simp only [tokenRow]
  rw [hb]

theorem tokenRow_error_eq (env : Env) (ch : ChainConfig) (c : String)
    (t : TokenConfig) (e : String)
    (hb : env.tokenBalanceOf ch.rpc t.address c = .error e) :
    tokenRow env ch c t
      = { chain := ch.id, wallet := some c,
          asset := some (if t.symbol ≠ "" then t.symbol else slice6 t.address),
          contract := some t.address, balance := none, decimals := none,
          error := some ("token error: " ++ e) } := by
  simp only [tokenRow]
  rw [hb]

/-! ## Claim C1: per-(chain, wallet) row-count invariant -/

/-- C1 counterexample: on a chain whose probe succeeds, a non-empty wallet
string that fails normalization yields 1 row (not `1 + #tokens = 2`), and
a valid wallet with one configured token whose contract address is empty
also yields 1 row (not 2) — both with the claim's hypotheses satisfied. -/
theorem C1_counterexample :
    testEnv.probe testChain.rpc = .ok ()
    ∧ ("0xzz" : String) ≠ ""
    ∧ ([tok1] : List TokenConfig).length = 1
    ∧ (walletRows testEnv testChain [tok1] "0xzz").length = 1
    ∧ addrLowA ≠ ""
    ∧ ([tokEmpty] : List TokenConfig).length = 1
    ∧ (walletRows testEnv testChain [tokEmpty] addrLowA).length = 1 :=
  ⟨rfl, by decide, rfl, rfl, by decide, rfl, rfl⟩

/-- C1 (amended): on a chain whose probe succeeds, a non-empty wallet that
normalizes successfully yields `1 + #tokens with non-empty contract
address` rows; a non-empty wallet failing normalization yields exactly 1
row; and on probe failure a single chain-level row replaces the whole
per-wallet block. -/
theorem C1_row_invariant (env : Env) (ch : ChainConfig)
    (toks : List TokenConfig) (w c w' : String)
    (env₂ : Env) (ch₂ : ChainConfig) (ws₂ : List String)
    (tk₂ : String → List TokenConfig) (e₂ : String) :
    (env.probe ch.rpc = .ok () → w ≠ "" → env.getAddress w = some c →
      (walletRows env ch toks w).length
        = 1 + (toks.filter (fun t => t.address ≠ "")).length)
    ∧ (env.probe ch.rpc = .ok () → w' ≠ "" → env.getAddress w' = none →
      (walletRows env ch toks w').length = 1)
    ∧ (ch₂.id ≠ "" → ch₂.rpc ≠ "" → env₂.probe ch₂.rpc = .error e₂ →
      chainRows env₂ ws₂ tk₂ ch₂ = [connectErrorRow ch₂.id e₂]) := by
  refine ⟨fun _ hw hc => walletRows_valid_length env ch toks w c hw hc,
    fun _ hw hna => ?_,
    fun hid hrpc hp => chainRows_probe_error env₂ ws₂ tk₂ ch₂ e₂ hid hrpc hp⟩
  rw [walletRows_invalid_eq env ch toks w' hw hna]
  rfl

/-- Witness for the amended C1 at the concrete fixtures. -/
theorem C1_row_invariant_witness :
    (walletRows testEnv testChain [tok1, tokEmpty] addrLowA).length
      = 1 + (([tok1, tokEmpty] : List TokenConfig).filter
          (fun t => t.address ≠ "")).length
    ∧ (walletRows testEnv testChain [tok1, tokEmpty] "0xzz").length = 1
    ∧ chainRows testEnv [addrLowA] (fun _ => [tok1]) badChain
        = [connectErrorRow "polygon" "timeout"] := by
  obtain ⟨h1, h2, h3⟩ := C1_row_invariant testEnv testChain [tok1, tokEmpty]
    addrLowA addrCanA "0xzz" testEnv badChain [addrLowA] (fun _ => [tok1])
    "timeout"
  exact ⟨h1 rfl (by decide) rfl, h2 rfl (by decide) rfl,
    h3 (by decide) (by decide) rfl⟩

/-! ## Claim C2: probe failure produces one chain-level row and moves on -/

/-- C2: when a chain's connectivity probe fails, the pass appends exactly
one chain-level row whose error is `"RPC connect error: "` followed by the
probe's message, with no wallet or contract fields, regardless of the
wallet and token configuration, and processing continues with the
remaining chains. -/
theorem C2_connect_error (env : Env) (ws : List String)
    (tk : String → List TokenConfig) (ch : ChainConfig)
    (rest : List ChainConfig) (e : String)
    (hid : ch.id ≠ "") (hrpc : ch.rpc ≠ "")
    (hp : env.probe ch.rpc = .error e) :
    chainRows env ws tk ch = [connectErrorRow ch.id e]
    ∧ (connectErrorRow ch.id e).error = some ("RPC connect error: " ++ e)
    ∧ (connectErrorRow ch.id e).wallet = none
    ∧ (connectErrorRow ch.id e).contract = none
    ∧ fetchBalancesOnce env (ch :: rest) ws tk
        = connectErrorRow ch.id e :: fetchBalancesOnce env rest ws tk := by
  have h := chainRows_probe_error env ws tk ch e hid hrpc hp
  refine ⟨h, rfl, rfl, rfl, ?_⟩
  rw [fetchBalancesOnce_cons, h]
  rfl

/-- Witness for C2 at the concrete fixtures (a large wallet/token
configuration, still one row). -/
theorem C2_connect_error_witness :
    chainRows testEnv [addrLowA, addrLowB] (fun _ => [tok1, tok2]) badChain
      = [connectErrorRow "polygon" "timeout"]
    ∧ (connectErrorRow "polygon" "timeout").error
        = some ("RPC connect error: " ++ "timeout")
    ∧ (connectErrorRow "polygon" "timeout").wallet = none
    ∧ (connectErrorRow "polygon" "timeout").contract = none
    ∧ fetchBalancesOnce testEnv [badChain, testChain] [addrLowA, addrLowB]
          (fun _ => [tok1, tok2])
        = connectErrorRow "polygon" "timeout"
          :: fetchBalancesOnce testEnv [testChain] [addrLowA, addrLowB]
              (fun _ => [tok1, tok2]) :=
  C2_connect_error testEnv [addrLowA, addrLowB] (fun _ => [tok1, tok2])
    badChain [testChain] "timeout" (by decide) (by decide) rfl

/-! ## Claim C3: invalid wallet address yields exactly one row -/

/-- C3: on a chain whose probe succeeded, a non-empty wallet string that
fails address normalization emits exactly one row — raw wallet string,
native asset symbol, contract `"native"`, null balance, error
`"invalid address"` — regardless of how many tokens are configured. -/
theorem C3_invalid_address (env : Env) (ch : ChainConfig)
    (toks : List TokenConfig) (w : String) (hw : w ≠ "")
    (hna : env.getAddress w = none) :
    walletRows env ch toks w
      = [{ chain := ch.id, wallet := some w,
           asset := some (if ch.symbol ≠ "" then ch.symbol else "native"),
           contract := some "native", balance := none, decimals := none,
           error := some "invalid address" }]
    ∧ (walletRows env ch toks w).length = 1
    ∧ (ch.symbol ≠ "" →
        (walletRows env ch toks w).map (fun r => r.asset) = [some ch.symbol]) := by
  have h := walletRows_invalid_eq env ch toks w hw hna
  refine ⟨h, by rw [h]; rfl, fun hs => ?_⟩
  rw [h]
  simp [hs]

/-- Witness for C3: invalid wallet on a healthy chain with 2 configured
tokens gives 1 row, not 3. -/
theorem C3_invalid_address_witness :
    walletRows testEnv testChain [tok1, tok2] "0xzz"
      = [{ chain := "ethereum", wallet := some "0xzz",
           asset := some (if ("ETH" : String) ≠ "" then "ETH" else "native"),
           contract := some "native", balance := none, decimals := none,
           error := some "invalid address" }]
    ∧ (walletRows testEnv testChain [tok1, tok2] "0xzz").length = 1
    ∧ (("ETH" : String) ≠ "" →
        (walletRows testEnv testChain [tok1, tok2] "0xzz").map (fun r => r.asset)
          = [some "ETH"]) :=
  C3_invalid_address testEnv testChain [tok1, tok2] "0xzz" (by decide) rfl

/-! ## Claim C4: per-fetch failures never abort the pass -/

/-- C4: for a wallet whose native fetch fails (`hn₃`), the wallet's row
list is still the native error row (null balance, non-null error) followed
by one row per configured token — the native failure prevents nothing;
each token balance-fetch failure yields its own error row while processing
continues; concretely, a healthy chain, a valid wallet and 2 tokens with
one failing balance fetch yield exactly 3 rows, of which exactly 1 has a
non-null error, and every error row has a null balance. -/
theorem C4_failure_isolation (env : Env) (ch : ChainConfig) (w c : String)
    (t1 t2 : TokenConfig) (nb b : ℤ) (e₂ : String)
    (env₃ : Env) (ch₃ : ChainConfig) (w₃ c₃ e₃ : String)
    (hw : w ≠ "") (hc : env.getAddress w = some c)
    (h1 : t1.address ≠ "") (h2 : t2.address ≠ "")
    (hn : env.getBalance ch.rpc c = .ok nb)
    (hb1 : env.tokenBalanceOf ch.rpc t1.address c = .ok b)
    (hb2 : env.tokenBalanceOf ch.rpc t2.address c = .error e₂)
    (hw₃ : w₃ ≠ "") (hc₃ : env₃.getAddress w₃ = some c₃)
    (hn₃ : env₃.getBalance ch₃.rpc c₃ = .error e₃) :
    (∀ toks : List TokenConfig, walletRows env₃ ch₃ toks w₃
        = nativeRow env₃ ch₃ c₃
          :: (toks.filter (fun t => t.address ≠ "")).map
              (tokenRow env₃ ch₃ c₃))
    ∧ (nativeRow env₃ ch₃ c₃).error = some ("native error: " ++ e₃)
    ∧ (nativeRow env₃ ch₃ c₃).balance = none
    ∧ (∀ toks : List TokenConfig, (walletRows env₃ ch₃ toks w₃).length
        = 1 + (toks.filter (fun t => t.address ≠ "")).length)
    ∧ (walletRows env ch [t1, t2] w).length = 3
    ∧ ((walletRows env ch [t1, t2] w).filter
        (fun r => r.error.isSome)).length = 1
    ∧ (∀ r ∈ walletRows env ch [t1, t2] w,
        r.error.isSome = true → r.balance = none) := by
  have hA : ∀ toks : List TokenConfig, walletRows env₃ ch₃ toks w₃
      = nativeRow env₃ ch₃ c₃
        :: (toks.filter (fun t => t.address ≠ "")).map (tokenRow env₃ ch₃ c₃) :=
    fun toks => walletRows_valid_eq env₃ ch₃ toks w₃ c₃ hw₃ hc₃
  have hferr := nativeRow_error_eq env₃ ch₃ c₃ e₃ hn₃
  have hD : ∀ toks : List TokenConfig, (walletRows env₃ ch₃ toks w₃).length
      = 1 + (toks.filter (fun t => t.address ≠ "")).length :=
    fun toks => walletRows_valid_length env₃ ch₃ toks w₃ c₃ hw₃ hc₃
  have hfilter : ([t1, t2] : List TokenConfig).filter
      (fun t => t.address ≠ "") = [t1, t2] := by
    simp [List.filter, h1, h2]
  have hrows : walletRows env ch [t1, t2] w
      = [nativeRow env ch c, tokenRow env ch c t1, tokenRow env ch c t2] := by
    rw [walletRows_valid_eq env ch [t1, t2] w c hw hc, hfilter]
    rfl
  have hnat := nativeRow_ok_eq env ch c nb hn
  have ht1 := tokenRow_ok_eq env ch c t1 b hb1
  have ht2 := tokenRow_error_eq env ch c t2 e₂ hb2
  refine ⟨hA, by rw [hferr], by rw [hferr], hD, by rw [hrows]; rfl, ?_, ?_⟩
  · rw [hrows, hnat, ht1, ht2]
    rfl
  · intro r hr herr
    rw [hrows] at hr
    rcases List.mem_cons.mp hr with rfl | hr
    · rw [hnat] at herr
      simp at herr
    rcases List.mem_cons.mp hr with rfl | hr
    · rw [ht1] at herr
      simp at herr
    rcases List.mem_singleton.mp hr with rfl
    rw [ht2]

/-- Witness for C4 at the concrete fixtures: wallet B's native fetch fails
(`getBalance` answers `.error "boom"`), yet its row list is the native
error row followed by one row per configured token (3 rows with the two
test tokens); on wallet A, token `0xtok1` succeeds and `0xtok2` fails,
giving 3 rows with exactly 1 error row. -/
theorem C4_failure_isolation_witness :
    (∀ toks : List TokenConfig, walletRows testEnv testChain toks addrLowB
        = nativeRow testEnv testChain addrCanB
          :: (toks.filter (fun t => t.address ≠ "")).map
              (tokenRow testEnv testChain addrCanB))
    ∧ (nativeRow testEnv testChain addrCanB).error
        = some ("native error: " ++ "boom")
    ∧ (nativeRow testEnv testChain addrCanB).balance = none
    ∧ (∀ toks : List TokenConfig,
        (walletRows testEnv testChain toks addrLowB).length
          = 1 + (toks.filter (fun t => t.address ≠ "")).length)
    ∧ (walletRows testEnv testChain [tok1, tok2] addrLowB).length = 3
    ∧ (walletRows testEnv testChain [tok1, tok2] addrLowA).length = 3
    ∧ ((walletRows testEnv testChain [tok1, tok2] addrLowA).filter
        (fun r => r.error.isSome)).length = 1
    ∧ (∀ r ∈ walletRows testEnv testChain [tok1, tok2] addrLowA,
        r.error.isSome = true → r.balance = none) := by
  obtain ⟨hA, hB, hC, hD, hE, hF, hG⟩ :=
    C4_failure_isolation testEnv testChain addrLowA addrCanA tok1 tok2
      (10 ^ 18) 5000000 "revert" testEnv testChain addrLowB addrCanB "boom"
      (by decide) rfl (by decide) (by decide) rfl rfl rfl
      (by decide) rfl rfl
  exact ⟨hA, hB, hC, hD, hD [tok1, tok2], hE, hF, hG⟩

/-! ## Claim C9: CSV serialization of the chain-level connect-error row -/

/-- C9: the chain-level connect-error row has no wallet/asset/contract
fields, so the CSV exporter's string coercion serializes those three as
the literal quoted text `undefined`, while decimals and balance are empty
strings and the error field is non-empty. -/
theorem C9_connect_error_csv (env : Env) (ws : List String)
    (tk : String → List TokenConfig) (ch : ChainConfig) (e : String)
    (hid : ch.id ≠ "") (hrpc : ch.rpc ≠ "")
    (hp : env.probe ch.rpc = .error e) :
    chainRows env ws tk ch = [connectErrorRow ch.id e]
    ∧ csvFields (connectErrorRow ch.id e)
        = [ch.id, "undefined", "undefined", "undefined", "", "",
           "RPC connect error: " ++ e]
    ∧ csvLine (connectErrorRow ch.id e)
        = String.intercalate ","
            [csvEscape ch.id, "\"undefined\"", "\"undefined\"",
             "\"undefined\"", "\"\"", "\"\"",
             csvEscape ("RPC connect error: " ++ e)]
    ∧ ("RPC connect error: " ++ e) ≠ "" := by
  refine ⟨chainRows_probe_error env ws tk ch e hid hrpc hp, rfl, rfl, ?_⟩
  intro hcontra
  have hdata := congrArg String.data hcontra
  rw [String.data_append] at hdata
  rcases List.append_eq_nil.mp hdata with ⟨hnil, _⟩
  exact absurd hnil (by decide)

/-- Witness for C9 at the concrete fixtures. -/
theorem C9_connect_error_csv_witness :
    chainRows testEnv [addrLowA] (fun _ => [tok1]) badChain
      = [connectErrorRow "polygon" "timeout"]
    ∧ csvFields (connectErrorRow "polygon" "timeout")
        = ["polygon", "undefined", "undefined", "undefined", "", "",
           "RPC connect error: " ++ "timeout"]
    ∧ csvLine (connectErrorRow "polygon" "timeout")
        = String.intercalate ","
            [csvEscape "polygon", "\"undefined\"", "\"undefined\"",
             "\"undefined\"", "\"\"", "\"\"",
             csvEscape ("RPC connect error: " ++ "timeout")]
    ∧ ("RPC connect error: " ++ "timeout" : String) ≠ "" :=
  C9_connect_error_csv testEnv [addrLowA] (fun _ => [tok1]) badChain
    "timeout" (by decide) (by decide) rfl

/-! ## Claim C7: wallet merge preserves existing entries and appends new -/

/-- C7: the merge returns the existing entries first, character-for-
character (normalization is used only for comparison), followed by exactly
the found addresses whose canonical form is not already present among the
canonicalized existing entries, in importer order; a found address
canonically equal to an existing entry is never appended.  The hypotheses
are the spec's contract on the external normalizer: idempotence, and that
the importer's output is already canonical. -/
theorem C7_merge_wallets (canon : String → Option String)
    (prev addrs : List String)
    (hid : ∀ x a, canon x = some a → canon a = some a)
    (hfound : ∀ a ∈ addrs, ∃ x, canon x = some a) :
    (mergeWallets canon prev addrs).take prev.length = prev
    ∧ (mergeWallets canon prev addrs).drop prev.length
        = addrs.filter (fun a =>
            !((prev.map (fun w => (canon w).getD w)).contains
              ((canon a).getD a)))
    ∧ (∀ a ∈ addrs, ∀ w ∈ prev, canon a = canon w →
        a ∉ (mergeWallets canon prev addrs).drop prev.length) := by
  have hcanon : ∀ a ∈ addrs, (canon a).getD a = a := by
    intro a ha
    obtain ⟨x, hx⟩ := hfound a ha
    rw [hid x a hx]
    rfl
  have hdrop : (mergeWallets canon prev addrs).drop prev.length
      = addrs.filter (fun a =>
          !((prev.map (fun w => (canon w).getD w)).contains a)) := by
    unfold mergeWallets
    exact List.drop_left prev _
  refine ⟨by unfold mergeWallets; exact List.take_left prev _, ?_, ?_⟩
  · rw [hdrop]
    apply List.filter_congr
    intro a ha
    rw [hcanon a ha]
  · intro a ha w hw hcw hmem
    rw [hdrop] at hmem
    have hpred := (List.mem_filter.mp hmem).2
    have haa : canon a = some a := by
      obtain ⟨x, hx⟩ := hfound a ha
      exact hid x a hx
    have hwa : (canon w).getD w = a := by
      rw [← hcw, haa]
      rfl
    have hamem : a ∈ prev.map (fun w => (canon w).getD w) :=
      List.mem_map.mpr ⟨w, hw, hwa⟩
    rw [contains_eq_true_of_mem hamem] at hpred
    exact absurd hpred (by decide)

/-- Witness for C7: the spec's example — one existing entry, a found set
holding its canonical case-variant plus one new address, yielding the
original entry unchanged plus exactly one appended entry. -/
theorem C7_merge_wallets_witness :
    (mergeWallets testCanon [addrLowA] [addrCanA, addrCanB]).take 1
      = [addrLowA]
    ∧ mergeWallets testCanon [addrLowA] [addrCanA, addrCanB]
        = [addrLowA, addrCanB] := by
  have hid : ∀ x a, testCanon x = some a → testCanon a = some a := by
    intro x a h
    unfold testCanon at h
    split at h
    · injection h with h'
      subst h'
      decide
    · split at h
      · injection h with h'
        subst h'
        decide
      · exact absurd h (by simp)
  have hfound : ∀ a ∈ ([addrCanA, addrCanB] : List String),
      ∃ x, testCanon x = some a := by
    intro a ha
    rcases List.mem_cons.mp ha with rfl | ha
    · exact ⟨addrLowA, by decide⟩
    rcases List.mem_singleton.mp ha with rfl
    exact ⟨addrLowB, by decide⟩
  refine ⟨(C7_merge_wallets testCanon [addrLowA] [addrCanA, addrCanB]
    hid hfound).1, by decide⟩

/-! ## Claim C8: address extraction collapses case variants -/

theorem mem_insertUnique (l : List String) (a x : String) :
    x ∈ insertUnique l a ↔ x ∈ l ∨ x = a := by
  unfold insertUnique
  split
  · constructor
    · exact Or.inl
    · rintro (h | rfl)
      · exact h
      · assumption
  · simp

theorem nodup_insertUnique (l : List String) (a : String) (h : l.Nodup) :
    (insertUnique l a).Nodup := by
  unfold insertUnique
  split
  · exact h
  · next hna =>
    simp [List.nodup_append, h, hna]

theorem mem_scanCell (canon : String → Option String) (acc : List String)
    (cell x : String) :
    x ∈ scanCell canon acc cell
      ↔ x ∈ acc ∨ (isProbablyAddress (jsTrim cell) = true
          ∧ canon (jsTrim cell) = some x) := by
  simp only [scanCell]
  split
  · next hp =>
    cases hc : canon (jsTrim cell) with
    | none => simp [hc]
    | some a =>
      rw [mem_insertUnique]
      simp [hp, hc, eq_comm]
  · next hp =>
    simp only [Bool.not_eq_true] at hp
    simp [hp]

theorem nodup_scanCell (canon : String → Option String) (acc : List String)
    (cell : String) (h : acc.Nodup) : (scanCell canon acc cell).Nodup := by
  simp only [scanCell]
  split
  · cases canon (jsTrim cell) with
    | none => exact h
    | some a => exact nodup_insertUnique acc a h
  · exact h

theorem mem_foldl_scan (canon : String → Option String)
    (cells : List String) (acc : List String) (x : String) :
    x ∈ cells.foldl (scanCell canon) acc
      ↔ x ∈ acc ∨ ∃ c ∈ cells, isProbablyAddress (jsTrim c) = true
          ∧ canon (jsTrim c) = some x := by
  induction cells generalizing acc with
  | nil => simp
  | cons c cs ih =>
    rw [List.foldl_cons, ih, mem_scanCell]
    constructor
    · rintro ((h | h) | ⟨c', hc', h⟩)
      · exact Or.inl h
      · exact Or.inr ⟨c, List.mem_cons_self c cs, h⟩
      · exact Or.inr ⟨c', List.mem_cons_of_mem c hc', h⟩
    · rintro (h | ⟨c', hc', h⟩)
      · exact Or.inl (Or.inl h)
      · rcases List.mem_cons.mp hc' with rfl | hc'
        · exact Or.inl (Or.inr h)
        · exact Or.inr ⟨c', hc', h⟩

theorem nodup_foldl_scan (canon : String → Option String)
    (cells : List String) (acc : List String) (h : acc.Nodup) :
    (cells.foldl (scanCell canon) acc).Nodup := by
  induction cells generalizing acc with
  | nil => exact h
  | cons c cs ih =>
    rw [List.foldl_cons]
    exact ih _ (nodup_scanCell canon acc c h)

theorem mem_foldl_rows (canon : String → Option String)
    (rows : List (List String)) (acc : List String) (x : String) :
    x ∈ rows.foldl (fun acc row => row.foldl (scanCell canon) acc) acc
      ↔ x ∈ acc ∨ ∃ row ∈ rows, ∃ c ∈ row,
          isProbablyAddress (jsTrim c) = true ∧ canon (jsTrim c) = some x := by
  induction rows generalizing acc with
  | nil => simp
  | cons row rows ih =>
    rw [List.foldl_cons, ih, mem_foldl_scan]
    constructor
    · rintro ((h | ⟨c, hc, h⟩) | ⟨row', hrow', hex⟩)
      · exact Or.inl h
      · exact Or.inr ⟨row, List.mem_cons_self row rows, c, hc, h⟩
      · exact Or.inr ⟨row', List.mem_cons_of_mem row hrow', hex⟩
    · rintro (h | ⟨row', hrow', hex⟩)
      · exact Or.inl (Or.inl h)
      · rcases List.mem_cons.mp hrow' with rfl | hrow'
        · exact Or.inl (Or.inr hex)
        · exact Or.inr ⟨row', hrow', hex⟩

theorem nodup_foldl_rows (canon : String → Option String)
    (rows : List (List String)) (acc : List String) (h : acc.Nodup) :
    (rows.foldl (fun acc row => row.foldl (scanCell canon) acc) acc).Nodup := by
  induction rows generalizing acc with
  | nil => exact h
  | cons row rows ih =>
    rw [List.foldl_cons]
    exact ih _ (nodup_foldl_scan canon row acc h)

/-- C8: the extracted address list is duplicate-free (each address occurs
at most once), membership is exactly "some cell normalizes to it", so two
cells holding case variants of one address — which the normalizer maps to
the same canonical output — contribute one element; concretely, a grid
with the same address in lowercase and uppercase cells extracts to a
single element. -/
theorem C8_extract_dedup (canon : String → Option String)
    (grid : List (List String)) :
    (extractAddressesFromSheet canon grid).Nodup
    ∧ (∀ a, (extractAddressesFromSheet canon grid).count a ≤ 1)
    ∧ (∀ a, a ∈ extractAddressesFromSheet canon grid
        ↔ ∃ row ∈ grid, ∃ c ∈ row,
            isProbablyAddress (jsTrim c) = true ∧ canon (jsTrim c) = some a)
    ∧ extractAddressesFromSheet testCanon [[addrLowA], [addrUpA]]
        = [addrCanA] := by
  have hnodup : (extractAddressesFromSheet canon grid).Nodup := by
    unfold extractAddressesFromSheet
    exact nodup_foldl_rows canon _ _
      (nodup_foldl_rows canon _ _ List.nodup_nil)
  refine ⟨hnodup, fun a => List.nodup_iff_count_le_one.mp hnodup a, ?_,
    by decide⟩
  intro a
  unfold extractAddressesFromSheet
  rw [mem_foldl_rows, mem_foldl_rows]
  constructor
  · rintro ((h | ⟨row, hrow, hex⟩) | ⟨row, hrow, hex⟩)
    · exact absurd h (List.not_mem_nil a)
    · exact ⟨row, hrow, hex⟩
    · exact ⟨row, List.drop_subset 1 grid hrow, hex⟩
  · intro h
    exact Or.inl (Or.inr h)

end EvmTracker
